import Mathlib

/-!
# isuumo: polygon ("nazotte") estate search and the estate cache

A shallow embedding of `src/estate.go` (`getBoundingBox`, `searchEstateNazotte`,
`getEstateDetail`) and `src/helper/cache.go` (`CacheMap`), followed by the
properties proved about them.

Conventions of the embedding.

* `float64` is modelled by `Float64`: NaN, the two infinities and the finite
  values.  The code only ever *compares* coordinates, so a finite value is
  represented by the rational number it denotes (every finite `float64` is a
  rational; `+0` and `-0`, which Go's comparison operators cannot tell apart,
  are the same value here).  The comparison operators follow IEEE 754 as Go
  implements them: every ordered comparison with NaN is false.
* A handler is a function from what it reads (the bound request body, the
  database answer, the cache) to an `Outcome` that records the HTTP response
  together with the list of database statements the handler issued.
* `NazotteLimit` is a constant declared outside of the two embedded files; it
  is a parameter of the model.  `polygon.Contains` belongs to the external
  `golang-geo` library; it is a parameter as well.
-/

set_option linter.dupNamespace false

namespace Isuumo

/-! ## float64 comparison -/

/-- The values of Go's `float64` as far as the comparison operators see them. -/
inductive Float64 where
  | nan
  | negInf
  | finite (q : ℚ)
  | posInf
deriving DecidableEq

namespace Float64

/-- Go's `a < b` on `float64`. -/
def lt : Float64 → Float64 → Bool
  | nan, _ => false
  | _, nan => false
  | negInf, negInf => false
  | negInf, _ => true
  | finite _, negInf => false
  | finite a, finite b => decide (a < b)
  | finite _, posInf => true
  | posInf, _ => false

/-- Go's `a > b` on `float64`. -/
def gt (a b : Float64) : Bool := lt b a

/-- Go's `a == b` on `float64`: NaN is equal to nothing, itself included. -/
def eq : Float64 → Float64 → Bool
  | nan, _ => false
  | _, nan => false
  | a, b => decide (a = b)

/-- Go's `a <= b` on `float64` (the same relation as SQL's `<=` on numbers). -/
def le (a b : Float64) : Bool := lt a b || eq a b

/-- Go's `a >= b` on `float64` (the same relation as SQL's `>=` on numbers). -/
def ge (a b : Float64) : Bool := lt b a || eq a b

/-- The value is NaN. -/
def isNaN : Float64 → Bool
  | nan => true
  | _ => false

end Float64

/-! ## Coordinates and the bounding box (`src/estate.go`, lines 428-454) -/

/-- The Go struct `Coordinate`. -/
structure Coordinate where
  Latitude : Float64
  Longitude : Float64
deriving DecidableEq

/-- The Go struct `Coordinates`: the decoded request body of the nazotte search. -/
structure Coordinates where
  Coordinates : List Coordinate
deriving DecidableEq

/-- The Go struct `BoundingBox`. -/
structure BoundingBox where
  TopLeftCorner : Coordinate
  BottomRightCorner : Coordinate
deriving DecidableEq

/-- One iteration of the `for _, coordinate := range coordinates` loop of
`getBoundingBox`: four guarded assignments, in the order of the source. -/
def boundingBoxStep (boundingBox : BoundingBox) (coordinate : Coordinate) : BoundingBox :=
  let b1 : BoundingBox :=
    if Float64.gt boundingBox.TopLeftCorner.Latitude coordinate.Latitude then
      { boundingBox with
        TopLeftCorner := { boundingBox.TopLeftCorner with Latitude := coordinate.Latitude } }
    else boundingBox
  let b2 : BoundingBox :=
    if Float64.gt b1.TopLeftCorner.Longitude coordinate.Longitude then
      { b1 with TopLeftCorner := { b1.TopLeftCorner with Longitude := coordinate.Longitude } }
    else b1
  let b3 : BoundingBox :=
    if Float64.lt b2.BottomRightCorner.Latitude coordinate.Latitude then
      { b2 with
        BottomRightCorner := { b2.BottomRightCorner with Latitude := coordinate.Latitude } }
    else b2
  if Float64.lt b3.BottomRightCorner.Longitude coordinate.Longitude then
    { b3 with
      BottomRightCorner := { b3.BottomRightCorner with Longitude := coordinate.Longitude } }
  else b3

/-- The method `Coordinates.getBoundingBox`.  `none` is the run-time panic of
`coordinates[0]` on an empty slice; otherwise both corners start at the first
vertex and the loop runs over every vertex, the first one included. -/
def getBoundingBox (cs : Coordinates) : Option BoundingBox :=
  match cs.Coordinates with
  | [] => none
  | c0 :: rest =>
    some ((c0 :: rest).foldl boundingBoxStep
      { TopLeftCorner := { Latitude := c0.Latitude, Longitude := c0.Longitude },
        BottomRightCorner := { Latitude := c0.Latitude, Longitude := c0.Longitude } })

/-! ## Estates, the database and HTTP responses -/

/-- The Go struct `Estate` (a row of the `estate` table). -/
structure Estate where
  ID : Int
  Thumbnail : String
  Name : String
  Description : String
  Latitude : Float64
  Longitude : Float64
  Address : String
  Rent : Int
  DoorHeight : Int
  DoorWidth : Int
  Features : String
  Popularity : Int
  PopularityDesc : Int
deriving DecidableEq

/-- The Go struct `EstateSearchResponse`. -/
structure EstateSearchResponse where
  Count : Int
  Estates : List Estate
deriving DecidableEq

/-- A statement sent to the database, with the values bound to its `?`
placeholders in the order of the call. -/
inductive Statement where
  /-- `SELECT * FROM estate WHERE latitude <= ? AND latitude >= ? AND longitude <= ?
  AND longitude >= ? ORDER BY popularity_desc ASC, id ASC`. -/
  | selectEstatesInBox (p1 p2 p3 p4 : Float64)
  /-- `SELECT * FROM estate WHERE id = ?`. -/
  | selectEstateById (id : Int)
deriving DecidableEq

/-- What a call of `db.Select` or `db.Get` reports: the scanned value,
`sql.ErrNoRows`, or any other error. -/
inductive DbResult (α : Type) where
  | ok (value : α)
  | errNoRows
  | err
deriving DecidableEq

/-- What a handler sends back.  `runtimePanic` stands for a Go run-time panic
inside the handler (no response is written by the handler itself). -/
inductive Response where
  | noContent (status : Nat)
  | jsonSearch (status : Nat) (body : EstateSearchResponse)
  | jsonEstate (status : Nat) (body : Estate)
  | runtimePanic
deriving DecidableEq

/-- The observable result of one handler call: the response and the database
statements issued, oldest first. -/
structure Outcome where
  response : Response
  statements : List Statement
deriving DecidableEq

/-- The condition of the `WHERE` clause of the nazotte range query, evaluated on
the row `(latitude, longitude)` with `p1 .. p4` bound to the four placeholders:
`latitude <= ? AND latitude >= ? AND longitude <= ? AND longitude >= ?`. -/
def nazotteWhere (p1 p2 p3 p4 : Float64) (latitude longitude : Float64) : Bool :=
  Float64.le latitude p1 && Float64.ge latitude p2 &&
    Float64.le longitude p3 && Float64.ge longitude p4

/-- Whether a statement of the nazotte handler selects the row with the given
coordinates (a statement of another shape selects by other columns). -/
def Statement.admits : Statement → Float64 → Float64 → Bool
  | .selectEstatesInBox p1 p2 p3 p4, latitude, longitude =>
    nazotteWhere p1 p2 p3 p4 latitude longitude
  | .selectEstateById _, _, _ => false

/-! ## The nazotte search (`src/estate.go`, lines 301-384) -/

/-- The loop `for _, estate := range estatesInBoundingBox` of
`searchEstateNazotte`; `estatesInPolygon` is the slice collected so far.  An
estate inside the polygon is appended, and the loop is left (`break`) when the
length of the slice is then equal to `NazotteLimit`. -/
def nazotteLoop (NazotteLimit : Nat) (inPolygon : Estate → Bool) :
    List Estate → List Estate → List Estate
  | [], estatesInPolygon => estatesInPolygon
  | estate :: rest, estatesInPolygon =>
    if inPolygon estate then
      if (estatesInPolygon ++ [estate]).length = NazotteLimit then
        estatesInPolygon ++ [estate]
      else nazotteLoop NazotteLimit inPolygon rest (estatesInPolygon ++ [estate])
    else nazotteLoop NazotteLimit inPolygon rest estatesInPolygon

/-- The handler `searchEstateNazotte`.

* `NazotteLimit` is the constant of that name;
* `Contains polygon point` is `geo.NewPolygon(points).Contains(point)` for the
  polygon built from the request's vertices;
* `bind` is the result of `c.Bind(&coordinates)`: `none` when it fails;
* `dbSelect` answers the `db.Select` call. -/
def searchEstateNazotte (NazotteLimit : Nat) (Contains : List Coordinate → Coordinate → Bool)
    (bind : Option Coordinates) (dbSelect : Statement → DbResult (List Estate)) : Outcome :=
  match bind with
  | none => { response := .noContent 400, statements := [] }
  | some coordinates =>
    if coordinates.Coordinates.length = 0 then
      { response := .noContent 400, statements := [] }
    else
      match getBoundingBox coordinates with
      | none => { response := .runtimePanic, statements := [] }
      | some b =>
        let query := Statement.selectEstatesInBox b.BottomRightCorner.Latitude
          b.TopLeftCorner.Latitude b.BottomRightCorner.Longitude b.TopLeftCorner.Longitude
        match dbSelect query with
        | .errNoRows =>
          { response := .jsonSearch 200 { Count := 0, Estates := [] }, statements := [query] }
        | .err => { response := .noContent 500, statements := [query] }
        | .ok estatesInBoundingBox =>
          let estatesInPolygon := nazotteLoop NazotteLimit
            (fun estate => Contains coordinates.Coordinates
              { Latitude := estate.Latitude, Longitude := estate.Longitude })
            estatesInBoundingBox []
          let estates :=
            if estatesInPolygon.length > NazotteLimit then estatesInPolygon.take NazotteLimit
            else estatesInPolygon
          { response := .jsonSearch 200 { Count := (estates.length : Int), Estates := estates },
            statements := [query] }

/-- The search written the way the specification words it: keep every
candidate inside the polygon, in the order of the store, then cut the list to
the cap; the count is the length of what is returned. -/
def searchSpec (N : Nat) (inPolygon : Estate → Bool) (candidates : List Estate) :
    EstateSearchResponse :=
  { Count := (min (candidates.filter inPolygon).length N : Nat),
    Estates := (candidates.filter inPolygon).take N }

/-! ## The cache (`src/helper/cache.go`) -/

/-- The Go struct `CacheMap`: the map `m`.  The embedded `sync.RWMutex` only
orders concurrent calls and has no counterpart in this sequential model.  Keys
range over a type with decidable equality: this covers the Go keys that can be
hashed and whose `==` is reflexive, such as integers and strings (every key
used in the repository is an `int` identifier). -/
structure CacheMap (K V : Type) where
  m : K → Option V

/-- The constructor `NewCacheMap`: an empty map. -/
def NewCacheMap {K V : Type} : CacheMap K V :=
  { m := fun _ => none }

/-- The method `CacheMap.Get`: `some value` is the Go result `(value, true)`,
`none` is `(nil, false)`. -/
def CacheMap.Get {K V : Type} (c : CacheMap K V) (key : K) : Option V :=
  c.m key

/-- The method `CacheMap.Set`: `c.m[key] = value`. -/
def CacheMap.Set {K V : Type} [DecidableEq K] (c : CacheMap K V) (key : K) (value : V) :
    CacheMap K V :=
  { m := fun k => if k = key then some value else c.m k }

/-- A finite sequence of `Set` calls, applied oldest first. -/
def CacheMap.setAll {K V : Type} [DecidableEq K] (c : CacheMap K V) (calls : List (K × V)) :
    CacheMap K V :=
  calls.foldl (fun acc kv => acc.Set kv.1 kv.2) c

/-! ## The estate detail lookup (`src/estate.go`, lines 46-72) -/

/-- The handler `getEstateDetail`, with the package variable `estateCache`
passed in and handed back.

* `idParam` is the result of `strconv.Atoi(c.Param("id"))`: `none` when it fails;
* `dbGet` answers the `db.Get` call. -/
def getEstateDetail (idParam : Option Int) (estateCache : CacheMap Int Estate)
    (dbGet : Statement → DbResult Estate) : Outcome × CacheMap Int Estate :=
  match idParam with
  | none => ({ response := .noContent 400, statements := [] }, estateCache)
  | some id =>
    match estateCache.Get id with
    | some estate => ({ response := .jsonEstate 200 estate, statements := [] }, estateCache)
    | none =>
      let query := Statement.selectEstateById id
      match dbGet query with
      | .errNoRows => ({ response := .noContent 404, statements := [query] }, estateCache)
      | .err => ({ response := .noContent 500, statements := [query] }, estateCache)
      | .ok estate =>
        ({ response := .jsonEstate 200 estate, statements := [query] },
          estateCache.Set id estate)

/-! ## Concrete data used to instantiate the theorems -/

/-- An estate with the given identifier and position; the other columns are blank. -/
def estateAt (id : Int) (latitude longitude : ℚ) : Estate :=
  { ID := id, Thumbnail := "", Name := "", Description := "",
    Latitude := .finite latitude, Longitude := .finite longitude, Address := "",
    Rent := 0, DoorHeight := 0, DoorWidth := 0, Features := "",
    Popularity := 0, PopularityDesc := 0 }

/-- The vertex with the given finite coordinates. -/
def vertex (latitude longitude : ℚ) : Coordinate :=
  { Latitude := .finite latitude, Longitude := .finite longitude }

/-- The square with corners `(0,0), (0,10), (10,10), (10,0)`. -/
def square : Coordinates :=
  { Coordinates := [vertex 0 0, vertex 0 10, vertex 10 10, vertex 10 0] }

/-- A database holding estate 2 only: looking up 3 reports `sql.ErrNoRows`, and
any other statement fails. -/
def sampleDbGet : Statement → DbResult Estate
  | .selectEstateById 2 => .ok (estateAt 2 5 5)
  | .selectEstateById 3 => .errNoRows
  | _ => .err

/-- A stand-in for `polygon.Contains`: the points strictly inside the open
rectangle `0 < latitude < 10`, `0 < longitude < 10`. -/
def sampleContains (_polygon : List Coordinate) (point : Coordinate) : Bool :=
  Float64.lt (.finite 0) point.Latitude && Float64.lt point.Latitude (.finite 10) &&
    Float64.lt (.finite 0) point.Longitude && Float64.lt point.Longitude (.finite 10)

/-- Seven candidates in store order; estates 1, 2, 4, 5 and 7 are inside
`sampleContains`, estates 3 and 6 lie on the boundary of the square. -/
def sampleCandidates : List Estate :=
  [estateAt 1 5 5, estateAt 2 1 9, estateAt 3 0 5, estateAt 4 2 2, estateAt 5 9 9,
   estateAt 6 10 10, estateAt 7 3 4]

/-- A database answering every range query with `sampleCandidates`. -/
def sampleDbSelect : Statement → DbResult (List Estate) :=
  fun _ => .ok sampleCandidates

/-- A triangle whose first vertex has latitude NaN. -/
def nanTriangle : Coordinates :=
  { Coordinates := [{ Latitude := .nan, Longitude := .finite 0 }, vertex 0 0, vertex 0 1] }

/-- A two-vertex polygon whose second vertex is NaN in both coordinates. -/
def nanTail : Coordinates :=
  { Coordinates := [vertex 1 1, { Latitude := .nan, Longitude := .nan }] }

/-! ## Vocabulary of the properties -/

/-- No coordinate of the polygon is NaN. -/
def Coordinates.noNaN (cs : Isuumo.Coordinates) : Prop :=
  ∀ c ∈ cs.Coordinates, c.Latitude.isNaN = false ∧ c.Longitude.isNaN = false

/-- The box encloses the vertex: `TopLeftCorner <= v <= BottomRightCorner`,
componentwise, with Go's `<=`. -/
def BoundingBox.encloses (b : BoundingBox) (v : Coordinate) : Prop :=
  Float64.le b.TopLeftCorner.Latitude v.Latitude = true ∧
  Float64.le v.Latitude b.BottomRightCorner.Latitude = true ∧
  Float64.le b.TopLeftCorner.Longitude v.Longitude = true ∧
  Float64.le v.Longitude b.BottomRightCorner.Longitude = true

/-- The specification's `min(xs)`: an element of `xs` that is `<=` every element. -/
def IsMinimumOf (m : Float64) (xs : List Float64) : Prop :=
  m ∈ xs ∧ ∀ x ∈ xs, Float64.le m x = true

/-- The specification's `max(xs)`: an element of `xs` that every element is `<=`. -/
def IsMaximumOf (m : Float64) (xs : List Float64) : Prop :=
  m ∈ xs ∧ ∀ x ∈ xs, Float64.le x m = true

/-- The box of the specification's data model: each corner coordinate is the
minimum, resp. maximum, of the corresponding vertex coordinates. -/
def BoundingBox.IsSmallestEnclosing (b : BoundingBox) (cs : Coordinates) : Prop :=
  IsMinimumOf b.TopLeftCorner.Latitude (cs.Coordinates.map (·.Latitude)) ∧
  IsMinimumOf b.TopLeftCorner.Longitude (cs.Coordinates.map (·.Longitude)) ∧
  IsMaximumOf b.BottomRightCorner.Latitude (cs.Coordinates.map (·.Latitude)) ∧
  IsMaximumOf b.BottomRightCorner.Longitude (cs.Coordinates.map (·.Longitude))

/-! ## Facts about float64 comparison -/

theorem Float64.le_self {a : Float64} (ha : a.isNaN = false) : Float64.le a a = true := by
  cases a <;> simp_all [Float64.le, Float64.lt, Float64.eq, Float64.isNaN]

theorem Float64.le_of_gt_eq_false {a b : Float64} (ha : a.isNaN = false) (hb : b.isNaN = false)
    (h : Float64.gt a b = false) : Float64.le a b = true := by
  cases a <;> cases b <;>
    simp_all [Float64.le, Float64.lt, Float64.gt, Float64.eq, Float64.isNaN]
  rename_i x y
  rcases lt_or_eq_of_le h with h1 | h1
  · exact Or.inl h1
  · exact Or.inr h1

theorem Float64.le_of_lt {a b : Float64} (h : Float64.lt a b = true) : Float64.le a b = true := by
  simp [Float64.le, h]

theorem Float64.le_trans {a b c : Float64} (hab : Float64.le a b = true)
    (hbc : Float64.le b c = true) : Float64.le a c = true := by
  cases a <;> cases b <;> cases c <;>
    simp_all [Float64.le, Float64.lt, Float64.eq]
  rename_i x y z
  have h1 : x ≤ y := by rcases hab with h | h; exact LT.lt.le h; exact Eq.le h
  have h2 : y ≤ z := by rcases hbc with h | h; exact LT.lt.le h; exact Eq.le h
  exact lt_or_eq_of_le (h1.trans h2)

theorem Float64.ge_eq_le (a b : Float64) : Float64.ge a b = Float64.le b a := by
  cases a <;> cases b <;> simp [Float64.ge, Float64.le, Float64.lt, Float64.eq, eq_comm]


/-! ## The cache: round trip and miss -/

theorem CacheMap.get_set_self {K V : Type} [DecidableEq K] (c : CacheMap K V) (key : K)
    (value : V) : (c.Set key value).Get key = some value := by
  simp [CacheMap.Set, CacheMap.Get]

theorem CacheMap.get_set_other {K V : Type} [DecidableEq K] (c : CacheMap K V) {key id : K}
    (value : V) (h : key ≠ id) : (c.Set key value).Get id = c.Get id := by
  simp [CacheMap.Set, CacheMap.Get, Ne.symm h]

theorem CacheMap.get_setAll_other {K V : Type} [DecidableEq K] (calls : List (K × V)) :
    ∀ (c : CacheMap K V) (id : K), (∀ kv ∈ calls, kv.1 ≠ id) →
      (c.setAll calls).Get id = c.Get id := by
  induction calls with
  | nil => intro c id _; rfl
  | cons kv rest ih =>
    intro c id h
    have hkv : kv.1 ≠ id := h kv (List.mem_cons_self _ _)
    have hrest : ∀ x ∈ rest, x.1 ≠ id := fun x hx => h x (List.mem_cons_of_mem _ hx)
    show ((c.Set kv.1 kv.2).setAll rest).Get id = c.Get id
    rw [ih (c.Set kv.1 kv.2) id hrest, CacheMap.get_set_other c kv.2 hkv]

/-- C5. After `Set(id, v)`, followed by any finite sequence of `Set` calls on
keys different from `id`, `Get(id)` returns `(v, true)`; a later `Set(id, v')`
overwrites, so that `Get(id)` then returns `(v', true)`. -/
theorem cache_round_trip {K V : Type} [DecidableEq K] (c : CacheMap K V) (id : K) (v v' : V)
    (later : List (K × V)) (hlater : ∀ kv ∈ later, kv.1 ≠ id) :
    ((c.Set id v).setAll later).Get id = some v ∧
      ((((c.Set id v).setAll later).Set id v').Get id = some v') := by
  refine ⟨?_, CacheMap.get_set_self _ _ _⟩
  rw [CacheMap.get_setAll_other later (c.Set id v) id hlater]
  exact CacheMap.get_set_self c id v

/-- C5 at a concrete cache: key 7 is set to 70, keys 1 and 2 are set afterwards,
and key 7 is then overwritten with 71. -/
theorem cache_round_trip_witness :
    (((NewCacheMap : CacheMap Int Nat).Set 7 70).setAll [(1, 10), (2, 20)]).Get 7 = some 70 ∧
      (((((NewCacheMap : CacheMap Int Nat).Set 7 70).setAll [(1, 10), (2, 20)]).Set 7 71).Get 7
        = some 71) :=
  cache_round_trip NewCacheMap 7 70 71 [(1, 10), (2, 20)] (by decide)

/-- C6. In a cache obtained from `NewCacheMap` by any finite sequence of `Set`
calls, `Get(id)` reports "not found" for every key `id` that is not the key of
one of these calls; in particular `Get` on a fresh cache finds nothing. -/
theorem cache_miss {K V : Type} [DecidableEq K] (calls : List (K × V)) (id : K)
    (hid : ∀ kv ∈ calls, kv.1 ≠ id) :
    ((NewCacheMap : CacheMap K V).setAll calls).Get id = none ∧
      ∀ key : K, (NewCacheMap : CacheMap K V).Get key = none := by
  refine ⟨?_, fun _ => rfl⟩
  rw [CacheMap.get_setAll_other calls NewCacheMap id hid]
  rfl

/-- C6 at a concrete cache: keys 1 and 2 were set, key 3 never was. -/
theorem cache_miss_witness :
    ((NewCacheMap : CacheMap Int Nat).setAll [(1, 10), (2, 20), (1, 11)]).Get 3 = none ∧
      ∀ key : Int, (NewCacheMap : CacheMap Int Nat).Get key = none :=
  cache_miss [(1, 10), (2, 20), (1, 11)] 3 (by decide)


/-! ## The estate detail lookup is read-through -/

/-- C9. The cached lookup of `getEstateDetail` for an identifier `id`:
a hit returns the cached estate and issues no statement; a miss on which the
database returns `e` returns `e` and leaves `id` mapped to `e` in the cache, so
that the next lookup of `id` returns `e` and issues no statement, whatever the
database would answer; a miss on which the database reports `sql.ErrNoRows`
(resp. another error) returns 404 (resp. 500) and leaves the cache as it was. -/
theorem getEstateDetail_read_through (estateCache : CacheMap Int Estate)
    (dbGet : Statement → DbResult Estate) (id : Int) :
    (∀ e, estateCache.Get id = some e →
        getEstateDetail (some id) estateCache dbGet
          = ({ response := .jsonEstate 200 e, statements := [] }, estateCache)) ∧
    (∀ e, estateCache.Get id = none → dbGet (.selectEstateById id) = .ok e →
        (getEstateDetail (some id) estateCache dbGet).1.response = .jsonEstate 200 e ∧
        (getEstateDetail (some id) estateCache dbGet).2.Get id = some e ∧
        ∀ dbGet2 : Statement → DbResult Estate,
          getEstateDetail (some id) (getEstateDetail (some id) estateCache dbGet).2 dbGet2
            = ({ response := .jsonEstate 200 e, statements := [] },
                (getEstateDetail (some id) estateCache dbGet).2)) ∧
    (estateCache.Get id = none → dbGet (.selectEstateById id) = .errNoRows →
        (getEstateDetail (some id) estateCache dbGet).1.response = .noContent 404 ∧
        (getEstateDetail (some id) estateCache dbGet).2 = estateCache) ∧
    (estateCache.Get id = none → dbGet (.selectEstateById id) = .err →
        (getEstateDetail (some id) estateCache dbGet).1.response = .noContent 500 ∧
        (getEstateDetail (some id) estateCache dbGet).2 = estateCache) := by
  refine ⟨?_, ?_, ?_, ?_⟩
  · intro e h
    simp [getEstateDetail, h]
  · intro e h hdb
    have hstep : getEstateDetail (some id) estateCache dbGet
        = ({ response := .jsonEstate 200 e, statements := [.selectEstateById id] },
            estateCache.Set id e) := by
      simp [getEstateDetail, h, hdb]
    rw [hstep]
    refine ⟨rfl, CacheMap.get_set_self _ _ _, ?_⟩
    intro dbGet2
    simp [getEstateDetail, CacheMap.get_set_self]
  · intro h hdb
    simp [getEstateDetail, h, hdb]
  · intro h hdb
    simp [getEstateDetail, h, hdb]

/-- C9 at a concrete cache and database: estate 1 is cached, estate 2 is only
in the database, estate 3 is nowhere, and the lookup of 4 fails. -/
theorem getEstateDetail_read_through_witness :
    getEstateDetail (some 1) ((NewCacheMap : CacheMap Int Estate).Set 1 (estateAt 1 0 0))
        sampleDbGet
      = ({ response := .jsonEstate 200 (estateAt 1 0 0), statements := [] },
          (NewCacheMap : CacheMap Int Estate).Set 1 (estateAt 1 0 0)) ∧
    ((getEstateDetail (some 2) ((NewCacheMap : CacheMap Int Estate).Set 1 (estateAt 1 0 0))
        sampleDbGet).2.Get 2 = some (estateAt 2 5 5)) ∧
    ((getEstateDetail (some 3) ((NewCacheMap : CacheMap Int Estate).Set 1 (estateAt 1 0 0))
        sampleDbGet).1.response = .noContent 404) ∧
    ((getEstateDetail (some 4) ((NewCacheMap : CacheMap Int Estate).Set 1 (estateAt 1 0 0))
        sampleDbGet).1.response = .noContent 500) :=
  ⟨(getEstateDetail_read_through _ sampleDbGet 1).1 (estateAt 1 0 0) (by decide),
   ((getEstateDetail_read_through _ sampleDbGet 2).2.1 (estateAt 2 5 5) (by decide) rfl).2.1,
   ((getEstateDetail_read_through _ sampleDbGet 3).2.2.1 (by decide) rfl).1,
   ((getEstateDetail_read_through _ sampleDbGet 4).2.2.2 (by decide) rfl).1⟩


/-! ## The nazotte loop against filter-then-truncate -/

/-- With a cap of zero the `break` is never taken: every match is collected. -/
theorem nazotteLoop_zero (inPolygon : Estate → Bool) (candidates : List Estate) :
    ∀ acc : List Estate,
      nazotteLoop 0 inPolygon candidates acc = acc ++ candidates.filter inPolygon := by
  induction candidates with
  | nil => intro acc; simp [nazotteLoop]
  | cons e rest ih =>
    intro acc
    by_cases he : inPolygon e = true
    · simp [nazotteLoop, he, ih]
    · simp [nazotteLoop, he, ih]

/-- Below the cap, the loop appends the matches up to the cap and stops there. -/
theorem nazotteLoop_below (N : Nat) (inPolygon : Estate → Bool) (candidates : List Estate) :
    ∀ acc : List Estate, acc.length < N →
      nazotteLoop N inPolygon candidates acc
        = acc ++ (candidates.filter inPolygon).take (N - acc.length) := by
  induction candidates with
  | nil => intro acc _; simp [nazotteLoop]
  | cons e rest ih =>
    intro acc hacc
    by_cases he : inPolygon e = true
    · by_cases hfull : acc.length + 1 = N
      · have h1 : N - acc.length = 1 := by omega
        simp [nazotteLoop, he, hfull, h1]
      · have hlt : (acc ++ [e]).length < N := by simp; omega
        have h1 : N - acc.length = (N - (acc ++ [e]).length) + 1 := by simp; omega
        simp only [nazotteLoop, he, if_true, List.length_append, List.length_singleton, hfull,
          if_false]
        rw [ih (acc ++ [e]) hlt, List.filter_cons_of_pos he, h1, List.take_succ_cons]
        simp
    · simp [nazotteLoop, he, ih acc hacc]

/-- The loop followed by the final truncation of `searchEstateNazotte` yields
the first `N` matches, for every cap. -/
theorem nazotte_collect_eq (N : Nat) (inPolygon : Estate → Bool) (candidates : List Estate) :
    (if (nazotteLoop N inPolygon candidates []).length > N then
        (nazotteLoop N inPolygon candidates []).take N
      else nazotteLoop N inPolygon candidates [])
      = (candidates.filter inPolygon).take N := by
  rcases Nat.eq_zero_or_pos N with h0 | hpos
  · subst h0
    rw [nazotteLoop_zero]
    by_cases hlen : (candidates.filter inPolygon).length > 0
    · simp [hlen]
    · have : candidates.filter inPolygon = [] := by
        apply List.eq_nil_of_length_eq_zero; omega
      simp [this]
  · rw [nazotteLoop_below N inPolygon candidates [] (by simpa using hpos)]
    have hle : ((candidates.filter inPolygon).take N).length ≤ N := by
      simp [List.length_take]
    simp only [List.nil_append, List.length_nil, Nat.sub_zero]
    rw [if_neg (by omega)]


/-! ## The nazotte handler -/

/-- The response of `searchEstateNazotte` once the bounding box is computed and
the database has returned `candidates`. -/
theorem searchEstateNazotte_response_ok (N : Nat)
    (Contains : List Coordinate → Coordinate → Bool) (coordinates : Coordinates)
    (dbSelect : Statement → DbResult (List Estate)) (b : BoundingBox)
    (candidates : List Estate) (hb : getBoundingBox coordinates = some b)
    (hdb : dbSelect (.selectEstatesInBox b.BottomRightCorner.Latitude b.TopLeftCorner.Latitude
      b.BottomRightCorner.Longitude b.TopLeftCorner.Longitude) = .ok candidates) :
    (searchEstateNazotte N Contains (some coordinates) dbSelect).response
      = .jsonSearch 200 (searchSpec N
          (fun estate => Contains coordinates.Coordinates
            { Latitude := estate.Latitude, Longitude := estate.Longitude }) candidates) := by
  have hne : coordinates.Coordinates.length ≠ 0 := by
    intro h0
    have hnil : coordinates.Coordinates = [] := List.eq_nil_of_length_eq_zero h0
    simp [getBoundingBox, hnil] at hb
  simp only [searchEstateNazotte, hne, if_false, hb, hdb, searchSpec]
  rw [nazotte_collect_eq]
  simp [List.length_take, Nat.min_comm]

/-- C1. When the polygon is not empty and the database returns the ordered
list `candidates`, the response of `searchEstateNazotte` (whose loop stops at
the cap) is the one obtained by filtering all of `candidates` with the
containment test and truncating to the cap `N`: the first `N` matches in store
order, whatever the containment test and the cap are. -/
theorem searchEstateNazotte_eq_filter_take (N : Nat)
    (Contains : List Coordinate → Coordinate → Bool) (coordinates : Coordinates)
    (dbSelect : Statement → DbResult (List Estate)) (b : BoundingBox)
    (candidates : List Estate) (hb : getBoundingBox coordinates = some b)
    (hdb : dbSelect (.selectEstatesInBox b.BottomRightCorner.Latitude b.TopLeftCorner.Latitude
      b.BottomRightCorner.Longitude b.TopLeftCorner.Longitude) = .ok candidates) :
    (searchEstateNazotte N Contains (some coordinates) dbSelect).response
        = .jsonSearch 200 (searchSpec N
            (fun estate => Contains coordinates.Coordinates
              { Latitude := estate.Latitude, Longitude := estate.Longitude }) candidates) ∧
      (searchSpec N
            (fun estate => Contains coordinates.Coordinates
              { Latitude := estate.Latitude, Longitude := estate.Longitude })
            candidates).Estates
        = (candidates.filter (fun estate => Contains coordinates.Coordinates
            { Latitude := estate.Latitude, Longitude := estate.Longitude })).take N :=
  ⟨searchEstateNazotte_response_ok N Contains coordinates dbSelect b candidates hb hdb, rfl⟩

/-- C1 with cap 3 and five matching candidates (among seven): exactly the first
three matches, in store order, are returned. -/
theorem searchEstateNazotte_eq_filter_take_witness :
    (searchEstateNazotte 3 sampleContains (some square) sampleDbSelect).response
      = .jsonSearch 200
          { Count := 3, Estates := [estateAt 1 5 5, estateAt 2 1 9, estateAt 4 2 2] } :=
  (searchEstateNazotte_eq_filter_take 3 sampleContains square sampleDbSelect
    { TopLeftCorner := vertex 0 0, BottomRightCorner := vertex 10 10 } sampleCandidates
    (by decide) rfl).1.trans (by decide)

/-- C2. Every JSON response of `searchEstateNazotte` is a 200 whose list of
estates is no longer than the cap `N` (also for `N = 0`) and whose count is the
length of that list. -/
theorem searchEstateNazotte_count_le (N : Nat) (Contains : List Coordinate → Coordinate → Bool)
    (bind : Option Coordinates) (dbSelect : Statement → DbResult (List Estate))
    (status : Nat) (body : EstateSearchResponse)
    (h : (searchEstateNazotte N Contains bind dbSelect).response = .jsonSearch status body) :
    status = 200 ∧ body.Estates.length ≤ N ∧ body.Count = (body.Estates.length : Int) := by
  cases bind with
  | none => simp [searchEstateNazotte] at h
  | some coordinates =>
    by_cases hne : coordinates.Coordinates.length = 0
    · simp [searchEstateNazotte, hne] at h
    · cases hb : getBoundingBox coordinates with
      | none => simp [searchEstateNazotte, hne, hb] at h
      | some b =>
        cases hdb : dbSelect (.selectEstatesInBox b.BottomRightCorner.Latitude
          b.TopLeftCorner.Latitude b.BottomRightCorner.Longitude b.TopLeftCorner.Longitude) with
        | errNoRows =>
          simp only [searchEstateNazotte, hne, if_false, hb, hdb, Response.jsonSearch.injEq] at h
          obtain ⟨hs, hbody⟩ := h
          subst hbody
          exact ⟨hs.symm, by simp, by simp⟩
        | err => simp [searchEstateNazotte, hne, hb, hdb] at h
        | ok candidates =>
          have hresp := searchEstateNazotte_response_ok N Contains coordinates dbSelect b
            candidates hb hdb
          rw [hresp] at h
          simp only [Response.jsonSearch.injEq] at h
          obtain ⟨hs, hbody⟩ := h
          subst hbody
          refine ⟨hs.symm, ?_, ?_⟩
          · simp [searchSpec, List.length_take]
          · simp [searchSpec, List.length_take, Nat.min_comm]

/-- C2 with cap 0: the response lists no estate and counts 0. -/
theorem searchEstateNazotte_count_le_witness :
    (searchEstateNazotte 0 sampleContains (some square) sampleDbSelect).response
        = .jsonSearch 200 { Count := 0, Estates := [] } ∧
      (200 = 200 ∧ ([] : List Estate).length ≤ 0 ∧ (0 : Int) = (([] : List Estate).length : Int)) :=
  ⟨by decide,
   searchEstateNazotte_count_le 0 sampleContains (some square) sampleDbSelect 200
    { Count := 0, Estates := [] } (by decide)⟩

/-- C7. A request whose decoded polygon has no vertex is answered with 400 and
issues no database statement; `getBoundingBox`, which would panic on this
input, is not reached. -/
theorem searchEstateNazotte_empty_polygon (N : Nat)
    (Contains : List Coordinate → Coordinate → Bool) (coordinates : Coordinates)
    (dbSelect : Statement → DbResult (List Estate)) (h : coordinates.Coordinates = []) :
    searchEstateNazotte N Contains (some coordinates) dbSelect
        = { response := .noContent 400, statements := [] } ∧
      getBoundingBox coordinates = none := by
  simp [searchEstateNazotte, getBoundingBox, h]

/-- C7 at the empty polygon, cap 50. -/
theorem searchEstateNazotte_empty_polygon_witness :
    searchEstateNazotte 50 sampleContains (some { Coordinates := [] }) sampleDbSelect
        = { response := .noContent 400, statements := [] } ∧
      getBoundingBox { Coordinates := [] } = none :=
  searchEstateNazotte_empty_polygon 50 sampleContains { Coordinates := [] } sampleDbSelect rfl


/-! ## The bounding box -/

theorem boundingBoxStep_topLeft_latitude (b : BoundingBox) (c : Coordinate) :
    (boundingBoxStep b c).TopLeftCorner.Latitude
      = if Float64.gt b.TopLeftCorner.Latitude c.Latitude then c.Latitude
        else b.TopLeftCorner.Latitude := by
  unfold boundingBoxStep
  simp only []
  split_ifs <;> rfl

theorem boundingBoxStep_topLeft_longitude (b : BoundingBox) (c : Coordinate) :
    (boundingBoxStep b c).TopLeftCorner.Longitude
      = if Float64.gt b.TopLeftCorner.Longitude c.Longitude then c.Longitude
        else b.TopLeftCorner.Longitude := by
  unfold boundingBoxStep
  simp only []
  split_ifs <;> rfl

theorem boundingBoxStep_bottomRight_latitude (b : BoundingBox) (c : Coordinate) :
    (boundingBoxStep b c).BottomRightCorner.Latitude
      = if Float64.lt b.BottomRightCorner.Latitude c.Latitude then c.Latitude
        else b.BottomRightCorner.Latitude := by
  unfold boundingBoxStep
  simp only []
  split_ifs <;> rfl

theorem boundingBoxStep_bottomRight_longitude (b : BoundingBox) (c : Coordinate) :
    (boundingBoxStep b c).BottomRightCorner.Longitude
      = if Float64.lt b.BottomRightCorner.Longitude c.Longitude then c.Longitude
        else b.BottomRightCorner.Longitude := by
  unfold boundingBoxStep
  simp only []
  split_ifs <;> rfl


/-- A corner coordinate maintained as a running minimum: on NaN-free data it
ends as a lower bound of the start value and of every vertex seen, and it is
one of these values. -/
theorem foldl_running_min (pb : BoundingBox → Float64) (pc : Coordinate → Float64)
    (hstep : ∀ b c, pb (boundingBoxStep b c)
      = if Float64.gt (pb b) (pc c) then pc c else pb b)
    (l : List Coordinate) :
    ∀ b : BoundingBox, (pb b).isNaN = false → (∀ c ∈ l, (pc c).isNaN = false) →
      (pb (l.foldl boundingBoxStep b)).isNaN = false ∧
      Float64.le (pb (l.foldl boundingBoxStep b)) (pb b) = true ∧
      (∀ c ∈ l, Float64.le (pb (l.foldl boundingBoxStep b)) (pc c) = true) ∧
      (pb (l.foldl boundingBoxStep b) = pb b ∨
        ∃ c ∈ l, pb (l.foldl boundingBoxStep b) = pc c) := by
  induction l with
  | nil =>
    intro b hb _
    exact ⟨hb, Float64.le_self hb, by simp, Or.inl rfl⟩
  | cons c rest ih =>
    intro b hb hl
    have hc : (pc c).isNaN = false := hl c (List.mem_cons_self _ _)
    have hrest : ∀ x ∈ rest, (pc x).isNaN = false :=
      fun x hx => hl x (List.mem_cons_of_mem _ hx)
    have hb' : (pb (boundingBoxStep b c)).isNaN = false := by
      rw [hstep]; split_ifs <;> assumption
    obtain ⟨h1, h2, h3, h4⟩ := ih (boundingBoxStep b c) hb' hrest
    simp only [List.foldl_cons]
    have key : Float64.le (pb (boundingBoxStep b c)) (pb b) = true ∧
        Float64.le (pb (boundingBoxStep b c)) (pc c) = true := by
      rw [hstep]
      by_cases hgt : Float64.gt (pb b) (pc c) = true
      · rw [if_pos hgt]
        exact ⟨Float64.le_of_lt hgt, Float64.le_self hc⟩
      · rw [if_neg hgt]
        exact ⟨Float64.le_self hb,
          Float64.le_of_gt_eq_false hb hc (by simpa using hgt)⟩
    refine ⟨h1, Float64.le_trans h2 key.1, ?_, ?_⟩
    · intro x hx
      rcases List.mem_cons.mp hx with hxc | hxr
      · subst hxc; exact Float64.le_trans h2 key.2
      · exact h3 x hxr
    · rcases h4 with h4 | ⟨x, hx, h4⟩
      · rw [h4, hstep]
        by_cases hgt : Float64.gt (pb b) (pc c) = true
        · rw [if_pos hgt]; exact Or.inr ⟨c, List.mem_cons_self _ _, rfl⟩
        · rw [if_neg hgt]; exact Or.inl rfl
      · exact Or.inr ⟨x, List.mem_cons_of_mem _ hx, h4⟩

/-- A corner coordinate maintained as a running maximum: on NaN-free data it
ends as an upper bound of the start value and of every vertex seen, and it is
one of these values. -/
theorem foldl_running_max (pb : BoundingBox → Float64) (pc : Coordinate → Float64)
    (hstep : ∀ b c, pb (boundingBoxStep b c)
      = if Float64.lt (pb b) (pc c) then pc c else pb b)
    (l : List Coordinate) :
    ∀ b : BoundingBox, (pb b).isNaN = false → (∀ c ∈ l, (pc c).isNaN = false) →
      (pb (l.foldl boundingBoxStep b)).isNaN = false ∧
      Float64.le (pb b) (pb (l.foldl boundingBoxStep b)) = true ∧
      (∀ c ∈ l, Float64.le (pc c) (pb (l.foldl boundingBoxStep b)) = true) ∧
      (pb (l.foldl boundingBoxStep b) = pb b ∨
        ∃ c ∈ l, pb (l.foldl boundingBoxStep b) = pc c) := by
  induction l with
  | nil =>
    intro b hb _
    exact ⟨hb, Float64.le_self hb, by simp, Or.inl rfl⟩
  | cons c rest ih =>
    intro b hb hl
    have hc : (pc c).isNaN = false := hl c (List.mem_cons_self _ _)
    have hrest : ∀ x ∈ rest, (pc x).isNaN = false :=
      fun x hx => hl x (List.mem_cons_of_mem _ hx)
    have hb' : (pb (boundingBoxStep b c)).isNaN = false := by
      rw [hstep]; split_ifs <;> assumption
    obtain ⟨h1, h2, h3, h4⟩ := ih (boundingBoxStep b c) hb' hrest
    simp only [List.foldl_cons]
    have key : Float64.le (pb b) (pb (boundingBoxStep b c)) = true ∧
        Float64.le (pc c) (pb (boundingBoxStep b c)) = true := by
      rw [hstep]
      by_cases hlt : Float64.lt (pb b) (pc c) = true
      · rw [if_pos hlt]
        exact ⟨Float64.le_of_lt hlt, Float64.le_self hc⟩
      · rw [if_neg hlt]
        exact ⟨Float64.le_self hb,
          Float64.le_of_gt_eq_false hc hb (by simpa [Float64.gt] using hlt)⟩
    refine ⟨h1, Float64.le_trans key.1 h2, ?_, ?_⟩
    · intro x hx
      rcases List.mem_cons.mp hx with hxc | hxr
      · subst hxc; exact Float64.le_trans key.2 h2
      · exact h3 x hxr
    · rcases h4 with h4 | ⟨x, hx, h4⟩
      · rw [h4, hstep]
        by_cases hlt : Float64.lt (pb b) (pc c) = true
        · rw [if_pos hlt]; exact Or.inr ⟨c, List.mem_cons_self _ _, rfl⟩
        · rw [if_neg hlt]; exact Or.inl rfl
      · exact Or.inr ⟨x, List.mem_cons_of_mem _ hx, h4⟩


/-- On a non-empty polygon without NaN, `getBoundingBox` returns a box, and
each of its four coordinates is the minimum, resp. maximum, of the
corresponding vertex coordinates. -/
theorem getBoundingBox_spec (cs : Coordinates) (hne : cs.Coordinates ≠ [])
    (hnan : cs.noNaN) :
    ∃ b, getBoundingBox cs = some b ∧ b.IsSmallestEnclosing cs := by
  obtain ⟨l⟩ := cs
  cases l with
  | nil => exact absurd rfl hne
  | cons c0 rest =>
    have hlat : ∀ c ∈ c0 :: rest, c.Latitude.isNaN = false := fun c hc => (hnan c hc).1
    have hlon : ∀ c ∈ c0 :: rest, c.Longitude.isNaN = false := fun c hc => (hnan c hc).2
    have h0lat := hlat c0 (List.mem_cons_self _ _)
    have h0lon := hlon c0 (List.mem_cons_self _ _)
    refine ⟨_, rfl, ?_, ?_, ?_, ?_⟩
    · obtain ⟨_, _, hle, hmem⟩ := foldl_running_min (fun b => b.TopLeftCorner.Latitude)
        (fun c => c.Latitude) boundingBoxStep_topLeft_latitude (c0 :: rest)
        { TopLeftCorner := { Latitude := c0.Latitude, Longitude := c0.Longitude },
          BottomRightCorner := { Latitude := c0.Latitude, Longitude := c0.Longitude } }
        h0lat hlat
      refine ⟨?_, ?_⟩
      · rcases hmem with h | ⟨c, hc, h⟩
        · exact List.mem_map.mpr ⟨c0, List.mem_cons_self _ _, h.symm⟩
        · exact List.mem_map.mpr ⟨c, hc, h.symm⟩
      · intro x hx
        obtain ⟨c, hc, rfl⟩ := List.mem_map.mp hx
        exact hle c hc
    · obtain ⟨_, _, hle, hmem⟩ := foldl_running_min (fun b => b.TopLeftCorner.Longitude)
        (fun c => c.Longitude) boundingBoxStep_topLeft_longitude (c0 :: rest)
        { TopLeftCorner := { Latitude := c0.Latitude, Longitude := c0.Longitude },
          BottomRightCorner := { Latitude := c0.Latitude, Longitude := c0.Longitude } }
        h0lon hlon
      refine ⟨?_, ?_⟩
      · rcases hmem with h | ⟨c, hc, h⟩
        · exact List.mem_map.mpr ⟨c0, List.mem_cons_self _ _, h.symm⟩
        · exact List.mem_map.mpr ⟨c, hc, h.symm⟩
      · intro x hx
        obtain ⟨c, hc, rfl⟩ := List.mem_map.mp hx
        exact hle c hc
    · obtain ⟨_, _, hle, hmem⟩ := foldl_running_max (fun b => b.BottomRightCorner.Latitude)
        (fun c => c.Latitude) boundingBoxStep_bottomRight_latitude (c0 :: rest)
        { TopLeftCorner := { Latitude := c0.Latitude, Longitude := c0.Longitude },
          BottomRightCorner := { Latitude := c0.Latitude, Longitude := c0.Longitude } }
        h0lat hlat
      refine ⟨?_, ?_⟩
      · rcases hmem with h | ⟨c, hc, h⟩
        · exact List.mem_map.mpr ⟨c0, List.mem_cons_self _ _, h.symm⟩
        · exact List.mem_map.mpr ⟨c, hc, h.symm⟩
      · intro x hx
        obtain ⟨c, hc, rfl⟩ := List.mem_map.mp hx
        exact hle c hc
    · obtain ⟨_, _, hle, hmem⟩ := foldl_running_max (fun b => b.BottomRightCorner.Longitude)
        (fun c => c.Longitude) boundingBoxStep_bottomRight_longitude (c0 :: rest)
        { TopLeftCorner := { Latitude := c0.Latitude, Longitude := c0.Longitude },
          BottomRightCorner := { Latitude := c0.Latitude, Longitude := c0.Longitude } }
        h0lon hlon
      refine ⟨?_, ?_⟩
      · rcases hmem with h | ⟨c, hc, h⟩
        · exact List.mem_map.mpr ⟨c0, List.mem_cons_self _ _, h.symm⟩
        · exact List.mem_map.mpr ⟨c, hc, h.symm⟩
      · intro x hx
        obtain ⟨c, hc, rfl⟩ := List.mem_map.mp hx
        exact hle c hc

/-- C3, as stated, fails on a polygon with a NaN coordinate: for the triangle
`(NaN,0), (0,0), (0,1)` both latitude bounds of the box are NaN, and the vertex
`(0,0)` is not enclosed, since no comparison with NaN holds. -/
theorem getBoundingBox_encloses_fails_on_nan :
    getBoundingBox nanTriangle
        = some { TopLeftCorner := { Latitude := .nan, Longitude := .finite 0 },
                 BottomRightCorner := { Latitude := .nan, Longitude := .finite 1 } } ∧
      vertex 0 0 ∈ nanTriangle.Coordinates ∧
      ¬ BoundingBox.encloses
          { TopLeftCorner := { Latitude := .nan, Longitude := .finite 0 },
            BottomRightCorner := { Latitude := .nan, Longitude := .finite 1 } } (vertex 0 0) := by
  refine ⟨by decide, by decide, ?_⟩
  intro h
  exact absurd h.1 (by decide)

/-- C3, amended. For every non-empty polygon none of whose coordinates is NaN,
`getBoundingBox` returns a box that encloses every vertex `v` of the polygon:
`TopLeftCorner.Latitude <= v.Latitude <= BottomRightCorner.Latitude` and
`TopLeftCorner.Longitude <= v.Longitude <= BottomRightCorner.Longitude`. -/
theorem getBoundingBox_encloses (cs : Coordinates) (hne : cs.Coordinates ≠ [])
    (hnan : cs.noNaN) :
    ∃ b, getBoundingBox cs = some b ∧ ∀ v ∈ cs.Coordinates, b.encloses v := by
  obtain ⟨b, hb, h1, h2, h3, h4⟩ := getBoundingBox_spec cs hne hnan
  refine ⟨b, hb, fun v hv => ⟨?_, ?_, ?_, ?_⟩⟩
  · exact h1.2 _ (List.mem_map.mpr ⟨v, hv, rfl⟩)
  · exact h3.2 _ (List.mem_map.mpr ⟨v, hv, rfl⟩)
  · exact h2.2 _ (List.mem_map.mpr ⟨v, hv, rfl⟩)
  · exact h4.2 _ (List.mem_map.mpr ⟨v, hv, rfl⟩)

/-- C3, amended, at the square `(0,0), (0,10), (10,10), (10,0)`. -/
theorem getBoundingBox_encloses_witness :
    ∃ b, getBoundingBox square = some b ∧ ∀ v ∈ square.Coordinates, b.encloses v :=
  getBoundingBox_encloses square (by decide) (by
    intro c hc
    simp only [square, List.mem_cons, List.mem_singleton, List.not_mem_nil, or_false] at hc
    rcases hc with rfl | rfl | rfl | rfl <;> exact ⟨rfl, rfl⟩)

/-- C4, as stated, fails on a polygon with a NaN coordinate: for the vertices
`(1,1), (NaN,NaN)` every bound of the box is 1, which is not the minimum of the
latitudes `1, NaN` (it is not `<=` NaN). -/
theorem getBoundingBox_smallest_fails_on_nan :
    getBoundingBox nanTail
        = some { TopLeftCorner := vertex 1 1, BottomRightCorner := vertex 1 1 } ∧
      ¬ BoundingBox.IsSmallestEnclosing
          { TopLeftCorner := vertex 1 1, BottomRightCorner := vertex 1 1 } nanTail := by
  refine ⟨by decide, ?_⟩
  intro h
  have hle := h.1.2 Float64.nan (by simp [nanTail])
  exact absurd hle (by decide)

/-- C4, amended. For every non-empty polygon none of whose coordinates is NaN,
`getBoundingBox` returns the smallest enclosing rectangle: `TopLeftCorner` holds
the minimum of the vertex latitudes and the minimum of the vertex longitudes,
`BottomRightCorner` the two maxima, and each bound is the coordinate of some
vertex. -/
theorem getBoundingBox_smallest (cs : Coordinates) (hne : cs.Coordinates ≠ [])
    (hnan : cs.noNaN) :
    ∃ b, getBoundingBox cs = some b ∧ b.IsSmallestEnclosing cs ∧
      (∃ v ∈ cs.Coordinates, b.TopLeftCorner.Latitude = v.Latitude) ∧
      (∃ v ∈ cs.Coordinates, b.TopLeftCorner.Longitude = v.Longitude) ∧
      (∃ v ∈ cs.Coordinates, b.BottomRightCorner.Latitude = v.Latitude) ∧
      (∃ v ∈ cs.Coordinates, b.BottomRightCorner.Longitude = v.Longitude) := by
  obtain ⟨b, hb, hs⟩ := getBoundingBox_spec cs hne hnan
  obtain ⟨h1, h2, h3, h4⟩ := hs
  refine ⟨b, hb, ⟨h1, h2, h3, h4⟩, ?_, ?_, ?_, ?_⟩
  · obtain ⟨v, hv, h⟩ := List.mem_map.mp h1.1; exact ⟨v, hv, h.symm⟩
  · obtain ⟨v, hv, h⟩ := List.mem_map.mp h2.1; exact ⟨v, hv, h.symm⟩
  · obtain ⟨v, hv, h⟩ := List.mem_map.mp h3.1; exact ⟨v, hv, h.symm⟩
  · obtain ⟨v, hv, h⟩ := List.mem_map.mp h4.1; exact ⟨v, hv, h.symm⟩

/-- C4, amended, at the quadrilateral `(2,7), (5,1), (3,9), (4,4)`. -/
theorem getBoundingBox_smallest_witness :
    ∃ b, getBoundingBox { Coordinates := [vertex 2 7, vertex 5 1, vertex 3 9, vertex 4 4] }
          = some b ∧
      b.IsSmallestEnclosing { Coordinates := [vertex 2 7, vertex 5 1, vertex 3 9, vertex 4 4] } ∧
      (∃ v ∈ [vertex 2 7, vertex 5 1, vertex 3 9, vertex 4 4],
        b.TopLeftCorner.Latitude = v.Latitude) ∧
      (∃ v ∈ [vertex 2 7, vertex 5 1, vertex 3 9, vertex 4 4],
        b.TopLeftCorner.Longitude = v.Longitude) ∧
      (∃ v ∈ [vertex 2 7, vertex 5 1, vertex 3 9, vertex 4 4],
        b.BottomRightCorner.Latitude = v.Latitude) ∧
      (∃ v ∈ [vertex 2 7, vertex 5 1, vertex 3 9, vertex 4 4],
        b.BottomRightCorner.Longitude = v.Longitude) :=
  getBoundingBox_smallest { Coordinates := [vertex 2 7, vertex 5 1, vertex 3 9, vertex 4 4] }
    (by decide) (by
      intro c hc
      simp only [List.mem_cons, List.mem_singleton, List.not_mem_nil, or_false] at hc
      rcases hc with rfl | rfl | rfl | rfl <;> exact ⟨rfl, rfl⟩)


/-! ## The range query of the nazotte search -/

theorem getBoundingBox_isSome (cs : Coordinates) (hne : cs.Coordinates ≠ []) :
    ∃ b, getBoundingBox cs = some b := by
  obtain ⟨l⟩ := cs
  cases l with
  | nil => exact absurd rfl hne
  | cons c0 rest => exact ⟨_, rfl⟩

/-- C8. For every non-empty polygon, `searchEstateNazotte` issues exactly one
statement, the range query with the parameters taken from `getBoundingBox`, and
that query admits a row at `(latitude, longitude)` if and only if
`topLeft.latitude <= latitude <= bottomRight.latitude` and
`topLeft.longitude <= longitude <= bottomRight.longitude`, both ends included. -/
theorem searchEstateNazotte_range_query (N : Nat)
    (Contains : List Coordinate → Coordinate → Bool) (coordinates : Coordinates)
    (dbSelect : Statement → DbResult (List Estate)) (hne : coordinates.Coordinates ≠ []) :
    ∃ b query, getBoundingBox coordinates = some b ∧
      (searchEstateNazotte N Contains (some coordinates) dbSelect).statements = [query] ∧
      ∀ latitude longitude : Float64,
        query.admits latitude longitude = true ↔
          (Float64.le b.TopLeftCorner.Latitude latitude = true ∧
           Float64.le latitude b.BottomRightCorner.Latitude = true ∧
           Float64.le b.TopLeftCorner.Longitude longitude = true ∧
           Float64.le longitude b.BottomRightCorner.Longitude = true) := by
  obtain ⟨b, hb⟩ := getBoundingBox_isSome coordinates hne
  have hlen : coordinates.Coordinates.length ≠ 0 := by
    intro h0; exact hne (List.eq_nil_of_length_eq_zero h0)
  refine ⟨b, .selectEstatesInBox b.BottomRightCorner.Latitude b.TopLeftCorner.Latitude
    b.BottomRightCorner.Longitude b.TopLeftCorner.Longitude, hb, ?_, ?_⟩
  · cases hdb : dbSelect (.selectEstatesInBox b.BottomRightCorner.Latitude
      b.TopLeftCorner.Latitude b.BottomRightCorner.Longitude b.TopLeftCorner.Longitude) <;>
      simp [searchEstateNazotte, hlen, hb, hdb]
  · intro latitude longitude
    simp only [Statement.admits, nazotteWhere, Float64.ge_eq_le, Bool.and_eq_true]
    constructor
    · rintro ⟨⟨⟨h1, h2⟩, h3⟩, h4⟩
      exact ⟨h2, h1, h4, h3⟩
    · rintro ⟨h1, h2, h3, h4⟩
      exact ⟨⟨⟨h2, h1⟩, h4⟩, h3⟩

/-- C8 at the square `(0,0), (0,10), (10,10), (10,0)`: the query issued admits
a row at `(5,5)` and excludes a row at `(20,20)`; rows on the border, such as
`(0,10)`, are admitted. -/
theorem searchEstateNazotte_range_query_witness :
    (∃ b query, getBoundingBox square = some b ∧
      (searchEstateNazotte 50 sampleContains (some square) sampleDbSelect).statements
        = [query] ∧
      ∀ latitude longitude : Float64,
        query.admits latitude longitude = true ↔
          (Float64.le b.TopLeftCorner.Latitude latitude = true ∧
           Float64.le latitude b.BottomRightCorner.Latitude = true ∧
           Float64.le b.TopLeftCorner.Longitude longitude = true ∧
           Float64.le longitude b.BottomRightCorner.Longitude = true)) ∧
    (searchEstateNazotte 50 sampleContains (some square) sampleDbSelect).statements
      = [.selectEstatesInBox (.finite 10) (.finite 0) (.finite 10) (.finite 0)] ∧
    (Statement.selectEstatesInBox (.finite 10) (.finite 0) (.finite 10) (.finite 0)).admits
      (.finite 5) (.finite 5) = true ∧
    (Statement.selectEstatesInBox (.finite 10) (.finite 0) (.finite 10) (.finite 0)).admits
      (.finite 20) (.finite 20) = false ∧
    (Statement.selectEstatesInBox (.finite 10) (.finite 0) (.finite 10) (.finite 0)).admits
      (.finite 0) (.finite 10) = true :=
  ⟨searchEstateNazotte_range_query 50 sampleContains square sampleDbSelect (by decide),
   by decide, by decide, by decide, by decide⟩

end Isuumo
